import Mathlib

/-!
Verification development for the aws-nextjs-deployment repository
(AWS CDK application: an AppStack with VPC, Aurora Serverless cluster,
ECS Fargate service behind an ALB, CloudFront distribution and WAF, plus
an ArtifactStack with ECR repository, static-asset bucket and a GitHub
Actions CI identity).

The definitions below shallowly embed the resource declarations of
cdk/lib/app-stack.ts and cdk/lib/artifact-stack.ts: JavaScript object
literals become association lists with spread/override semantics, the
environment (process.env) becomes a record of Option String fields, and
each CDK construct becomes a resource node carrying its properties and
the identifiers of the constructs it references.  The ECS rolling
deployment ("circuit breaker") is runtime behavior of the ECS control
plane, not code of this repository, so it is modelled from the spec as an
explicit state machine parameterized by the health-check values declared
in app-stack.ts.
-/

/- == JavaScript object semantics: association lists with last-wins keys == -/

/-- Keys of a JavaScript object, in insertion order (Object.keys). -/
def objKeys (o : List (String × α)) : List String :=
  o.map Prod.fst

/-- Property access on a JavaScript object: the value at the first (and,
for objects built by assignment, only) entry with the given key. -/
def objGet (k : String) : List (String × α) → Option α
  | [] => none
  | p :: rest => if p.1 = k then some p.2 else objGet k rest

/-- JavaScript property assignment on an object literal: if the key is
already present it is overwritten in place, otherwise the entry is
appended; this is the semantics of a computed member in an object
spread such as the spread-plus-override expressions in app-stack.ts. -/
def objSet (o : List (String × α)) (k : String) (v : α) : List (String × α) :=
  if k ∈ objKeys o then
    o.map (fun p => if p.1 = k then (k, v) else p)
  else o ++ [(k, v)]

/-- Spreading a list of entries into a fresh object literal, later
entries overriding earlier ones, as JavaScript object spread does. -/
def objFromList (l : List (String × α)) : List (String × α) :=
  l.foldl (fun acc p => objSet acc p.1 p.2) []

/-- The reduce pattern used twice in addContainer: fold a list of keys,
inserting for every key the value produced by a fixed function, as in
keys.reduce((acc, key) => (spread acc with key mapped to f key), empty). -/
def buildByKeys (f : String → α) (keys : List String) : List (String × α) :=
  keys.foldl (fun acc k => objSet acc k (f k)) []

/- == External environment (process.env) == -/

/-- The environment variables read by the two stacks, each possibly
unset.  TypeScript's postfix non-null assertion in the source is a
compile-time-only cast, so an unset variable reaches the constructs as
the value undefined, which this embedding represents as none. -/
structure Env where
  certificateArn : Option String
  repositoryName : Option String
  staticBucketName : Option String
  uploadBucketName : Option String
  secretName : Option String
  ecsClusterName : Option String
  domainName : Option String
  githubActionsRoleName : Option String
  auroraReaderReplica : Option String
deriving DecidableEq

/-- The environment with every variable unset. -/
def emptyEnv : Env :=
  { certificateArn := none, repositoryName := none, staticBucketName := none
    uploadBucketName := none, secretName := none, ecsClusterName := none
    domainName := none, githubActionsRoleName := none, auroraReaderReplica := none }

/-- JavaScript string coercion of a possibly-undefined value, as happens
in template literals and string concatenation: undefined prints as the
text "undefined". -/
def jsString (o : Option String) : String :=
  match o with
  | some s => s
  | none => "undefined"

/- == Condition Evaluator: the Aurora reader-replica flag == -/

/-- The guarding condition of the Aurora reader replica, from
app-stack.ts line 97: the strict JavaScript comparison of
process.env.AURORA_READER_REPLICA against the literal string "false".
An unset variable is undefined, which is not that string, so the
condition defaults to true; it is false exactly for the explicit
disabling value. -/
def auroraReaderCondition (flag : Option String) : Bool :=
  match flag with
  | none => true
  | some v => v != "false"

/- == Resource graph: nodes and references of the AppStack == -/

/-- A node of the composition graph: a construct identifier together
with the identifiers of the constructs its declaration references. -/
structure Resource where
  id : String
  refs : List String
deriving DecidableEq

/-- Construct id of the conditionally-included Aurora reader replica. -/
def replicaInstanceId : String :=
  "AuroraServerlessCluster/replica"

/-- The readers list of the Aurora cluster (app-stack.ts lines 96-104):
a spread of either a one-element list holding the serverless replica
instance or the empty list, selected by the reader-replica condition. -/
def auroraReaders (flag : Option String) : List Resource :=
  if auroraReaderCondition flag then
    [{ id := replicaInstanceId, refs := ["AuroraServerlessCluster"] }]
  else []

/-- AppStack constructs declared before the Aurora readers list, in
source order, with the references their declarations embed. -/
def appStackResourcesPre : List Resource :=
  [ { id := "DomainCertificate", refs := [] }
  , { id := "AppVPC", refs := [] }
  , { id := "AppRepository", refs := [] }
  , { id := "AppStaticBucket", refs := [] }
  , { id := "AppUploadBucket", refs := [] }
  , { id := "AppSecret", refs := [] }
  , { id := "AuroraServerlessCluster", refs := ["AppVPC", "AppSecret"] }
  , { id := "AuroraServerlessCluster/main", refs := ["AuroraServerlessCluster"] } ]

/-- AppStack constructs declared after the Aurora readers list, in
source order, with the references their declarations embed. -/
def appStackResourcesPost : List Resource :=
  [ { id := "AppCluster", refs := ["AppVPC"] }
  , { id := "TaskRole", refs := [] }
  , { id := "TaskRole/DefaultPolicy", refs := ["TaskRole", "AppUploadBucket"] }
  , { id := "AppTaskDefinition", refs := ["TaskRole"] }
  , { id := "AppTaskDefinition/AppContainer",
      refs := ["AppTaskDefinition", "AppRepository", "AppSecret"] }
  , { id := "AppALBSecurityGroup", refs := ["AppVPC"] }
  , { id := "AppALBSecurityGroup/ingress443", refs := ["AppALBSecurityGroup"] }
  , { id := "AppALBSecurityGroup/ingress3000", refs := ["AppALBSecurityGroup"] }
  , { id := "AppLoadBalancer", refs := ["AppVPC", "AppALBSecurityGroup"] }
  , { id := "AppLoadBalancer/https", refs := ["AppLoadBalancer", "DomainCertificate"] }
  , { id := "ServiceSecurityGroup", refs := ["AppVPC"] }
  , { id := "ServiceSecurityGroup/ingressFromALB",
      refs := ["ServiceSecurityGroup", "AppALBSecurityGroup"] }
  , { id := "AuroraSecurityGroup/ingressFromService",
      refs := ["AuroraServerlessCluster", "ServiceSecurityGroup"] }
  , { id := "AppFargateService",
      refs := ["AppCluster", "AppTaskDefinition", "ServiceSecurityGroup"] }
  , { id := "ApplicationFleet", refs := ["AppLoadBalancer/https", "AppFargateService"] }
  , { id := "CustomCachePolicy", refs := [] }
  , { id := "AppWebACL", refs := [] }
  , { id := "AppDistribution",
      refs := ["AppLoadBalancer", "AppStaticBucket", "DomainCertificate",
               "AppWebACL", "CustomCachePolicy"] }
  , { id := "GitHubActionsRole", refs := [] }
  , { id := "GitHubActionsRole/Policy",
      refs := ["GitHubActionsRole", "AppDistribution", "AppFargateService"] }
  , { id := "CloudFrontDistribution", refs := ["AppDistribution"] }
  , { id := "ECSCluster", refs := ["AppCluster"] }
  , { id := "ECSService", refs := ["AppFargateService"] }
  , { id := "CloudFrontURL", refs := ["AppDistribution"] } ]

/-- The full resource graph of the AppStack, in declaration order, with
the Aurora readers list spliced in at its source position; the reader
replica is present exactly when its guarding condition holds. -/
def appStackResources (flag : Option String) : List Resource :=
  appStackResourcesPre ++ auroraReaders flag ++ appStackResourcesPost

/- == Errors and reference resolution == -/

/-- The error taxonomy of the composition and validation phase. -/
inductive CompositionError where
  | duplicateResource
  | unknownResource
  | danglingReference
  | cyclicDependency
  | missingRequiredInput
deriving DecidableEq

/-- Modelled from the spec: the Reference Resolver of the synthesis
engine (CDK library code, not part of this repository's sources)
resolves a symbolic reference against the set of declared, non-pruned
resources and fails with DanglingReference when the target was pruned
by a false Condition or never declared. -/
def resolveRef (declared : List String) (target : String) : Except CompositionError String :=
  if declared.contains target then Except.ok target
  else Except.error CompositionError.danglingReference

/- == Resource declarations with their environment-derived properties == -/

/-- A declared resource together with its property set; a property whose
value came from an unset environment variable holds none. -/
structure ResourceDecl where
  id : String
  props : List (String × Option String)
deriving DecidableEq

/-- The upload bucket declaration (app-stack.ts lines 66-72): its name
is taken directly from process.env.UPLOAD_BUCKET_NAME with a non-null
assertion that performs no runtime check. -/
def uploadBucketDecl (env : Env) : ResourceDecl :=
  { id := "AppUploadBucket"
    props := [ ("bucketName", env.uploadBucketName)
             , ("versioned", some "false")
             , ("removalPolicy", some "RETAIN") ] }

/-- The declarations of the AppStack that consume environment variables,
in source order, each holding the possibly-undefined value that the
corresponding construct receives. -/
def appStackDecls (account : String) (env : Env) : List ResourceDecl :=
  [ { id := "DomainCertificate", props := [("certificateArn", env.certificateArn)] }
  , { id := "AppVPC", props := [("maxAzs", some "2")] }
  , { id := "AppRepository", props := [("repositoryName", env.repositoryName)] }
  , { id := "AppStaticBucket", props := [("bucketName", env.staticBucketName)] }
  , uploadBucketDecl env
  , { id := "AppSecret", props := [("secretName", env.secretName)] }
  , { id := "AuroraServerlessCluster",
      props := [("engineVersion", some "16.4"), ("storageEncrypted", some "true")] }
  , { id := "AppCluster", props := [("clusterName", env.ecsClusterName)] }
  , { id := "AppDistribution",
      props := [ ("domainName0", env.domainName)
               , ("domainName1", some ("www." ++ jsString env.domainName)) ] }
  , { id := "GitHubActionsRole",
      props := [ ("roleArn",
                  some ("arn:aws:iam::" ++ account ++ ":role/"
                        ++ jsString env.githubActionsRoleName)) ] } ]

/-- The outcome of running the AppStack constructor on a given
environment.  The constructor body performs no input validation of any
kind: every process.env read is guarded only by a TypeScript non-null
assertion, which is erased at runtime, so construction always succeeds
and unset inputs flow into the declarations as undefined. -/
def buildAppStack (account : String) (env : Env) : Except CompositionError (List ResourceDecl) :=
  Except.ok (appStackDecls account env)

/- == Container definition: environment variables and secrets == -/

/-- The configuration record of AppStackProps: plaintext environment
variables and the list of secret keys to inject. -/
structure AppConfig where
  environmentVariables : List (String × String)
  secrets : List String

/-- The envVars object of app-stack.ts lines 144-147: the configured
environment variables spread into a fresh object, then PORT assigned
the string "3000", overriding any configured PORT. -/
def envVars (cfg : AppConfig) : List (String × String) :=
  objSet (objFromList cfg.environmentVariables) "PORT" "3000"

/-- The container environment map of addContainer (lines 170-176):
Object.keys of envVars reduced back into an object, each key mapped to
its envVars value. -/
def containerEnvironment (cfg : AppConfig) : List (String × String) :=
  buildByKeys (fun k => (objGet k (envVars cfg)).getD "") (objKeys (envVars cfg))

/-- A by-key reference into a Secrets Manager secret, as produced by
ecs.Secret.fromSecretsManager(secret, key): the construct id of the
referenced secret and the JSON field pulled from it.  No resolved
plaintext value is ever part of this datum. -/
structure SecretKeyRef where
  secretId : String
  jsonField : String
deriving DecidableEq

/-- The container secrets map of addContainer (lines 177-182): the
configured secret key list reduced into an object mapping each key to a
by-key reference into the single AppSecret construct (which names the
external secret given by process.env.SECRET_NAME). -/
def containerSecrets (keys : List String) : List (String × SecretKeyRef) :=
  buildByKeys (fun k => { secretId := "AppSecret", jsonField := k }) keys

/- == Security groups == -/

/-- The peer of a security-group ingress rule: either the unrestricted
IPv4 block 0.0.0.0/0 or a reference to another security group. -/
inductive SgPeer where
  | anyIpv4
  | group : String → SgPeer
deriving DecidableEq

/-- An ingress rule: peer, TCP port and description. -/
structure IngressRule where
  peer : SgPeer
  port : Nat
  description : String
deriving DecidableEq

/-- The ingress rules added to the ALB security group (app-stack.ts
lines 206-218): both rules use ec2.Peer.anyIpv4() as their peer. -/
def albIngressRules : List IngressRule :=
  [ { peer := SgPeer.anyIpv4, port := 443, description := "Allow HTTPS traffic" }
  , { peer := SgPeer.anyIpv4, port := 3000, description := "Allow HTTP traffic" } ]

/-- The ingress rule added to the Fargate service security group
(lines 250-254): peer restricted to the ALB security group. -/
def serviceIngressRules : List IngressRule :=
  [ { peer := SgPeer.group "AppALBSecurityGroup", port := 3000
      description := "Allow inbound from ALB" } ]

/- == CI identity: IAM policy statements of the GitHub Actions user and role == -/

/-- A policy resource: either the full wildcard or an ARN derived from a
named resource (possibly an object-path wildcard under it). -/
inductive PolicyResource where
  | star
  | arnOf : String → PolicyResource
deriving DecidableEq

/-- An IAM policy statement: allowed actions over resources. -/
structure PolicyStatement where
  actions : List String
  resources : List PolicyResource
deriving DecidableEq

/-- The statement granting S3 object access on the static-assets bucket
to the GitHub Actions role (artifact-stack.ts lines 84-89). -/
def staticBucketObjectsStatement : PolicyStatement :=
  { actions := ["s3:PutObject", "s3:GetObject", "s3:DeleteObject"]
    resources := [PolicyResource.arnOf "AppStaticBucket/*"] }

/-- The statements attached to the GitHub Actions role by the AppStack
(app-stack.ts lines 408-439), in source order. -/
def appStackCiStatements : List PolicyStatement :=
  [ { actions := ["cloudfront:CreateInvalidation"]
      resources := [PolicyResource.arnOf "AppDistribution"] }
  , { actions := ["ecs:UpdateService"]
      resources := [PolicyResource.arnOf "AppFargateService"] }
  , { actions := ["ecs:DescribeTaskDefinition", "ecs:RegisterTaskDefinition"]
      resources := [PolicyResource.star] }
  , { actions := ["iam:PassRole"]
      resources := [PolicyResource.star] } ]

/-- The statements attached to the GitHub Actions role and user by the
ArtifactStack (artifact-stack.ts lines 66-103), in source order. -/
def artifactStackCiStatements : List PolicyStatement :=
  [ { actions := [ "ecr:InitiateLayerUpload", "ecr:UploadLayerPart"
                 , "ecr:CompleteLayerUpload", "ecr:PutImage"
                 , "ecr:BatchCheckLayerAvailability" ]
      resources := [PolicyResource.arnOf "AppRepository"] }
  , { actions := ["ecr:GetAuthorizationToken"]
      resources := [PolicyResource.star] }
  , staticBucketObjectsStatement
  , { actions := ["s3:ListBucket"]
      resources := [PolicyResource.arnOf "AppStaticBucket"] }
  , { actions := ["sts:AssumeRole"]
      resources := [PolicyResource.arnOf "GithubActionsDeploymentRole"] } ]

/-- Every policy statement attached to the external CI deployment
identity (role and user) across both stacks. -/
def ciPolicyStatements : List PolicyStatement :=
  appStackCiStatements ++ artifactStackCiStatements

/-- Following the spec's words: the constrained CI permission set —
image push, service update and cache invalidation, together with the
direct prerequisites of each (registry login, task-definition
read/registration, passing the task roles, assuming the deployment
role).  This definition exists to compare the spec's enumeration with
the statements actually attached in the source. -/
def constrainedCiAction (a : String) : Bool :=
  [ "ecr:InitiateLayerUpload", "ecr:UploadLayerPart", "ecr:CompleteLayerUpload"
  , "ecr:PutImage", "ecr:BatchCheckLayerAvailability", "ecr:GetAuthorizationToken"
  , "ecs:UpdateService", "ecs:DescribeTaskDefinition", "ecs:RegisterTaskDefinition"
  , "iam:PassRole", "sts:AssumeRole"
  , "cloudfront:CreateInvalidation" ].contains a

/-- The static-asset synchronization permissions the CI identity also
holds in the source: S3 object write/read/delete and bucket listing on
the static-assets bucket. -/
def staticAssetSyncAction (a : String) : Bool :=
  ["s3:PutObject", "s3:GetObject", "s3:DeleteObject", "s3:ListBucket"].contains a

/-- Actions that appear with a wildcard resource in the attached
statements: task-definition reads and registration, role passing and
the registry login token, none of which names a specific resource in
the source. -/
def wildcardResourceAction (a : String) : Bool :=
  [ "ecs:DescribeTaskDefinition", "ecs:RegisterTaskDefinition"
  , "iam:PassRole", "ecr:GetAuthorizationToken" ].contains a

/- == Rollout Orchestrator: the health-gated deployment state machine ==

The rolling replacement with automatic rollback ("circuit breaker") is
behavior of the ECS control plane at deploy time; only its parameters
are declared in app-stack.ts (the container health check of addContainer,
the circuit breaker and grace period of the Fargate service, and the
target-group health check of listener.addTargets).  The machine itself
is therefore modelled from the spec, instantiated with those declared
parameters. -/

/-- Modelled from the spec: the tunable parameters of the rollout state
machine — desired instance count, poll interval, start period during
which failing checks do not count, consecutive-failure and
consecutive-success thresholds, the bounded grace period inside which
rollback triggers, and the tolerance of extra unhealthy instances. -/
structure RolloutConfig where
  desiredCount : Nat
  interval : Nat
  startPeriod : Nat
  unhealthyThreshold : Nat
  healthyThreshold : Nat
  gracePeriod : Nat
  tolerance : Nat
deriving DecidableEq

/-- Modelled from the spec: the sub-state of a single compute instance,
transitioning starting to healthy to (optionally) unhealthy. -/
inductive SubState where
  | starting
  | healthy
  | unhealthy
deriving DecidableEq

/-- Modelled from the spec: one compute instance with its sub-state and
its counters of consecutive failed and consecutive successful polls. -/
structure InstanceState where
  sub : SubState
  consecFail : Nat
  consecSucc : Nat
deriving DecidableEq

/-- The instance state every new instance begins in. -/
def freshInstance : InstanceState :=
  { sub := SubState.starting, consecFail := 0, consecSucc := 0 }

/-- Modelled from the spec: the phases of a rollout. -/
inductive RolloutPhase where
  | pending
  | scalingUp
  | healthEvaluation
  | steady
  | rollingBack
  | rolledBack
  | failed
deriving DecidableEq

/-- Modelled from the spec: the per-deployment record — the instance
states, the load-balancing target set (indices of registered
instances), and the current phase. -/
structure RolloutState where
  instances : List InstanceState
  targets : List Nat
  phase : RolloutPhase
deriving DecidableEq

/-- Modelled from the spec: one health poll of one instance at time t.
A failing response during the start period does not count against the
instance; a counted failure increments the consecutive-failure counter
and crosses into unhealthy at the consecutive-failure threshold; a
success resets that counter and crosses into healthy at the
consecutive-success threshold. -/
def pollInstance (cfg : RolloutConfig) (t : Nat) (ok : Bool) (s : InstanceState) : InstanceState :=
  if ok then
    let cs := s.consecSucc + 1
    { sub := if cfg.healthyThreshold ≤ cs then SubState.healthy else s.sub
      consecFail := 0, consecSucc := cs }
  else if t < cfg.startPeriod then
    s
  else
    let cf := s.consecFail + 1
    { sub := if cfg.unhealthyThreshold ≤ cf then SubState.unhealthy else s.sub
      consecFail := cf, consecSucc := 0 }

/-- Apply one round of poll results positionally to the instance list;
an instance with no corresponding result is treated as passing. -/
def updateInstances (cfg : RolloutConfig) (t : Nat) :
    List Bool → List InstanceState → List InstanceState
  | _, [] => []
  | [], s :: ss => pollInstance cfg t true s :: updateInstances cfg t [] ss
  | r :: rs, s :: ss => pollInstance cfg t r s :: updateInstances cfg t rs ss

/-- The instance at position i, defaulting to a fresh instance. -/
def getInst (insts : List InstanceState) (i : Nat) : InstanceState :=
  insts.getD i freshInstance

/-- Number of instances currently in the unhealthy sub-state. -/
def countUnhealthy (insts : List InstanceState) : Nat :=
  insts.countP (fun s => s.sub == SubState.unhealthy)

/-- Number of instances currently in the healthy sub-state. -/
def countHealthy (insts : List InstanceState) : Nat :=
  insts.countP (fun s => s.sub == SubState.healthy)

/-- Whether position i holds an instance in the healthy sub-state. -/
def healthyAt (insts : List InstanceState) (i : Nat) : Bool :=
  decide (i < insts.length) && (getInst insts i).sub == SubState.healthy

/-- Whether position i holds an instance in the unhealthy sub-state. -/
def unhealthyAt (insts : List InstanceState) (i : Nat) : Bool :=
  decide (i < insts.length) && (getInst insts i).sub == SubState.unhealthy

/-- Modelled from the spec: maintenance of the load-balancing target
set after a poll round — instances that crossed the unhealthy threshold
are deregistered, and instances in the healthy sub-state are registered
if not present already.  Registration is thereby gated on the same
consecutive-success threshold that gates the healthy sub-state. -/
def registerTargets (targets : List Nat) (insts : List InstanceState) : List Nat :=
  let kept := targets.filter (fun i => !(unhealthyAt insts i))
  kept ++ (List.range insts.length).filter
    (fun i => healthyAt insts i && !(kept.contains i))

/-- Modelled from the spec: one control-loop step of the rollout during
HEALTH_EVALUATION, at poll time t.  The unhealthy count exceeding the
tolerance inside the grace period triggers ROLLING_BACK; the desired
count of healthy instances reaches STEADY; otherwise evaluation
continues.  Outside HEALTH_EVALUATION the record is left unchanged. -/
def stepRollout (cfg : RolloutConfig) (t : Nat) (results : List Bool)
    (st : RolloutState) : RolloutState :=
  if st.phase = RolloutPhase.healthEvaluation then
    let insts := updateInstances cfg t results st.instances
    { instances := insts
      targets := registerTargets st.targets insts
      phase :=
        if cfg.tolerance < countUnhealthy insts ∧ t ≤ cfg.gracePeriod then
          RolloutPhase.rollingBack
        else if cfg.desiredCount ≤ countHealthy insts then RolloutPhase.steady
        else RolloutPhase.healthEvaluation }
  else st

/-- Modelled from the spec: the state at the start of health
evaluation — the desired count of new instances started, none yet
registered with the load balancer. -/
def initState (cfg : RolloutConfig) : RolloutState :=
  { instances := List.replicate cfg.desiredCount freshInstance
    targets := [], phase := RolloutPhase.healthEvaluation }

/-- Run the control loop over a trace of timed poll rounds. -/
def runRollout (cfg : RolloutConfig) (st : RolloutState) :
    List (Nat × List Bool) → RolloutState
  | [] => st
  | (t, rs) :: rest => runRollout cfg (stepRollout cfg t rs st) rest

/-- All states visited while running the control loop over a trace,
including the starting state. -/
def runRolloutStates (cfg : RolloutConfig) (st : RolloutState) :
    List (Nat × List Bool) → List RolloutState
  | [] => [st]
  | (t, rs) :: rest => st :: runRolloutStates cfg (stepRollout cfg t rs st) rest

/-- Per-instance simulation of the consecutive-failure counter over a
trace, independent of the machine: a success resets it, a failure
during the start period leaves it, a counted failure increments it. -/
def cfSim (cfg : RolloutConfig) (t : Nat) (ok : Bool) (c : Nat) : Nat :=
  if ok then 0 else if t < cfg.startPeriod then c else c + 1

/-- The consecutive-failure counter of instance i after a trace,
starting from counter value c. -/
def cfRun (cfg : RolloutConfig) (i : Nat) (c : Nat) : List (Nat × List Bool) → Nat
  | [] => c
  | (t, rs) :: rest => cfRun cfg i (cfSim cfg t (rs.getD i true) c) rest

/- == Rollout parameters declared in app-stack.ts == -/

/-- The container health check of addContainer (lines 183-192). -/
structure ContainerHealthCheck where
  interval : Nat
  timeout : Nat
  retries : Nat
  startPeriod : Nat
deriving DecidableEq

/-- interval 30s, timeout 5s, retries 3, startPeriod 120s. -/
def appContainerHealthCheck : ContainerHealthCheck :=
  { interval := 30, timeout := 5, retries := 3, startPeriod := 120 }

/-- The Fargate service declaration values (lines 264-278). -/
structure FargateServiceConfig where
  desiredCount : Nat
  circuitBreakerRollback : Bool
  healthCheckGracePeriod : Nat
deriving DecidableEq

/-- desiredCount 2, circuit breaker with rollback, grace period 120s. -/
def appFargateServiceConfig : FargateServiceConfig :=
  { desiredCount := 2, circuitBreakerRollback := true, healthCheckGracePeriod := 120 }

/-- The target-group health check of listener.addTargets (lines 281-293). -/
structure TargetGroupHealthCheck where
  path : String
  unhealthyThresholdCount : Nat
  healthyThresholdCount : Nat
  interval : Nat
  timeout : Nat
  healthyHttpCodes : String
deriving DecidableEq

/-- path /api/healthCheck, thresholds 2 and 2, interval 60s, timeout
5s, healthy codes 200-299. -/
def appTargetGroupHealthCheck : TargetGroupHealthCheck :=
  { path := "/api/healthCheck", unhealthyThresholdCount := 2
    healthyThresholdCount := 2, interval := 60, timeout := 5
    healthyHttpCodes := "200-299" }

/-- The rollout configuration for the scenario of the spec: desired
count and grace period from the Fargate service, start period, interval
and failure threshold from the container health check, success
threshold from the target group, tolerance zero (circuit breaker rolls
back on any unhealthy instance beyond none). -/
def scenarioRolloutConfig : RolloutConfig :=
  { desiredCount := appFargateServiceConfig.desiredCount
    interval := appContainerHealthCheck.interval
    startPeriod := appContainerHealthCheck.startPeriod
    unhealthyThreshold := appContainerHealthCheck.retries
    healthyThreshold := appTargetGroupHealthCheck.healthyThresholdCount
    gracePeriod := appFargateServiceConfig.healthCheckGracePeriod
    tolerance := 0 }

/-- The scenario trace: both new instances fail every check during the
first 90 seconds (inside the 120-second start period), then pass. -/
def scenarioTrace : List (Nat × List Bool) :=
  [ (0, [false, false]), (30, [false, false]), (60, [false, false])
  , (90, [false, false]), (120, [true, true]), (150, [true, true]) ]

/- == Lemmas: JavaScript object semantics == -/

theorem objGet_map_overwrite {α : Type} (k : String) (v : α) :
    ∀ o : List (String × α), k ∈ objKeys o →
      objGet k (o.map (fun p => if p.1 = k then (k, v) else p)) = some v := by
  intro o
  induction o with
  | nil => intro h; simp [objKeys] at h
  | cons p rest ih =>
    intro h
    by_cases hp : p.1 = k
    · simp [objGet, hp]
    · have hrest : k ∈ objKeys rest := by
        simp [objKeys] at h
        rcases h with h | h
        · exact absurd h.symm hp
        · simpa [objKeys] using h
      simp [objGet, hp]
      exact ih hrest

theorem objGet_append_single {α : Type} (k : String) (v : α) :
    ∀ o : List (String × α), k ∉ objKeys o →
      objGet k (o ++ [(k, v)]) = some v := by
  intro o
  induction o with
  | nil => intro _; simp [objGet]
  | cons p rest ih =>
    intro h
    have hp : p.1 ≠ k := by
      intro he; exact h (by simp [objKeys, he])
    have hrest : k ∉ objKeys rest := by
      intro hm; exact h (by simp [objKeys] at hm ⊢; exact Or.inr hm)
    simp only [List.cons_append, objGet, hp, if_false]
    exact ih hrest

/-- Accessing the assigned key after a JavaScript property assignment
yields the assigned value. -/
theorem objGet_objSet_self {α : Type} (o : List (String × α)) (k : String) (v : α) :
    objGet k (objSet o k v) = some v := by
  unfold objSet
  by_cases h : k ∈ objKeys o
  · simp only [h, if_true]
    exact objGet_map_overwrite k v o h
  · simp only [h, if_false]
    exact objGet_append_single k v o h

theorem objGet_map_overwrite_ne {α : Type} (k k2 : String) (v : α) (hne : k2 ≠ k) :
    ∀ o : List (String × α),
      objGet k2 (o.map (fun p => if p.1 = k then (k, v) else p)) = objGet k2 o := by
  intro o
  induction o with
  | nil => rfl
  | cons p rest ih =>
    by_cases hp : p.1 = k
    · have hk2 : k ≠ k2 := fun he => hne he.symm
      simp only [List.map_cons, hp, if_true, objGet, hk2, if_false]
      exact ih
    · simp only [List.map_cons, hp, if_false, objGet]
      by_cases hp2 : p.1 = k2
      · simp [hp2]
      · simp [hp2]; exact ih

theorem objGet_append_single_ne {α : Type} (k k2 : String) (v : α) (hne : k2 ≠ k) :
    ∀ o : List (String × α), objGet k2 (o ++ [(k, v)]) = objGet k2 o := by
  intro o
  induction o with
  | nil =>
    have : k ≠ k2 := fun he => hne he.symm
    simp [objGet, this]
  | cons p rest ih =>
    by_cases hp : p.1 = k2
    · simp [objGet, hp]
    · simp [objGet, hp]; exact ih

/-- Accessing any other key is unaffected by a property assignment. -/
theorem objGet_objSet_ne {α : Type} (o : List (String × α)) (k k2 : String) (v : α)
    (hne : k2 ≠ k) : objGet k2 (objSet o k v) = objGet k2 o := by
  unfold objSet
  by_cases h : k ∈ objKeys o
  · simp only [h, if_true]
    exact objGet_map_overwrite_ne k k2 v hne o
  · simp only [h, if_false]
    exact objGet_append_single_ne k k2 v hne o

/-- Membership after a property assignment: every entry either was
already present or is the assigned pair. -/
theorem mem_objSet {α : Type} (o : List (String × α)) (k : String) (v : α)
    (p : String × α) (hp : p ∈ objSet o k v) : p ∈ o ∨ p = (k, v) := by
  unfold objSet at hp
  by_cases h : k ∈ objKeys o
  · simp only [h, if_true] at hp
    obtain ⟨q, hq, he⟩ := List.mem_map.mp hp
    by_cases hqk : q.1 = k
    · right; simp [hqk] at he; exact he.symm
    · left; simp [hqk] at he; exact he ▸ hq
  · simp only [h, if_false] at hp
    rcases List.mem_append.mp hp with hp | hp
    · exact Or.inl hp
    · exact Or.inr (List.mem_singleton.mp hp)

/-- Folding key insertions for keys other than k leaves the access of k
unchanged. -/
theorem objGet_foldl_objSet_not_mem {α : Type} (f : String → α) (k : String) :
    ∀ (ks : List String) (acc : List (String × α)), k ∉ ks →
      objGet k (ks.foldl (fun a k2 => objSet a k2 (f k2)) acc) = objGet k acc := by
  intro ks
  induction ks with
  | nil => intro acc _; rfl
  | cons k0 rest ih =>
    intro acc hk
    have hk0 : k ≠ k0 := by intro he; exact hk (he ▸ List.mem_cons_self k0 rest)
    have hrest : k ∉ rest := fun hm => hk (List.mem_cons_of_mem k0 hm)
    simp only [List.foldl_cons]
    rw [ih (objSet acc k0 (f k0)) hrest]
    exact objGet_objSet_ne acc k0 k (f k0) hk0

/-- A key inserted by the fold of buildByKeys accesses to its produced
value, whatever the starting object. -/
theorem objGet_foldl_objSet_of_mem {α : Type} (f : String → α) :
    ∀ (ks : List String) (acc : List (String × α)) (k : String), k ∈ ks →
      objGet k (ks.foldl (fun a k2 => objSet a k2 (f k2)) acc) = some (f k) := by
  intro ks
  induction ks with
  | nil => intro acc k hk; simp at hk
  | cons k0 rest ih =>
    intro acc k hk
    by_cases hkr : k ∈ rest
    · simp only [List.foldl_cons]
      exact ih (objSet acc k0 (f k0)) k hkr
    · have hk0 : k = k0 := by
        rcases List.mem_cons.mp hk with h | h
        · exact h
        · exact absurd h hkr
      subst hk0
      simp only [List.foldl_cons]
      rw [objGet_foldl_objSet_not_mem f k rest (objSet acc k (f k)) hkr]
      exact objGet_objSet_self acc k (f k)

/-- A key outside the inserted key list is absent from buildByKeys. -/
theorem objGet_buildByKeys_of_not_mem {α : Type} (f : String → α)
    (ks : List String) (k : String) (hk : k ∉ ks) :
    objGet k (buildByKeys f ks) = none := by
  unfold buildByKeys
  rw [objGet_foldl_objSet_not_mem f k ks [] hk]
  rfl

/-- Every entry produced by a fold of key insertions satisfies any
predicate that holds of the starting entries and of every inserted
pair. -/
theorem foldl_objSet_entries {α : Type} (f : String → α) (P : String × α → Prop) :
    ∀ (ks : List String) (acc : List (String × α)),
      (∀ p ∈ acc, P p) → (∀ k ∈ ks, P (k, f k)) →
      ∀ p ∈ ks.foldl (fun a k2 => objSet a k2 (f k2)) acc, P p := by
  intro ks
  induction ks with
  | nil => intro acc hacc _ p hp; exact hacc p hp
  | cons k0 rest ih =>
    intro acc hacc hks p hp
    simp only [List.foldl_cons] at hp
    refine ih (objSet acc k0 (f k0)) ?_ ?_ p hp
    · intro q hq
      rcases mem_objSet acc k0 (f k0) q hq with h | h
      · exact hacc q h
      · exact h ▸ hks k0 (List.mem_cons_self k0 rest)
    · intro k hk
      exact hks k (List.mem_cons_of_mem k0 hk)

/-- A key of an association list accesses to some value. -/
theorem objGet_isSome_of_mem_keys {α : Type} :
    ∀ (o : List (String × α)) (k : String), k ∈ objKeys o →
      ∃ v, objGet k o = some v := by
  intro o
  induction o with
  | nil => intro k hk; simp [objKeys] at hk
  | cons p rest ih =>
    intro k hk
    by_cases hkp : p.1 = k
    · exact ⟨p.2, by simp [objGet, hkp]⟩
    · have hk2 : k ∈ objKeys rest := by
        simp [objKeys] at hk
        rcases hk with h | h
        · exact absurd h.symm hkp
        · simpa [objKeys] using h
      obtain ⟨v, hv⟩ := ih k hk2
      exact ⟨v, by simp [objGet, hkp]; exact hv⟩

/-- A key absent from an association list accesses to none. -/
theorem objGet_eq_none_of_not_mem_keys {α : Type} :
    ∀ (o : List (String × α)) (k : String), k ∉ objKeys o →
      objGet k o = none := by
  intro o
  induction o with
  | nil => intro k _; rfl
  | cons p rest ih =>
    intro k hk
    have hkp : p.1 ≠ k := by
      intro he; exact hk (by simp [objKeys, he])
    have hk2 : k ∉ objKeys rest := by
      intro hm; exact hk (by simp [objKeys] at hm ⊢; exact Or.inr hm)
    simp [objGet, hkp]
    exact ih k hk2

/- == Lemmas: the rollout state machine == -/

theorem length_updateInstances (cfg : RolloutConfig) (t : Nat) :
    ∀ (rs : List Bool) (ss : List InstanceState),
      (updateInstances cfg t rs ss).length = ss.length := by
  intro rs ss
  induction ss generalizing rs with
  | nil => cases rs <;> rfl
  | cons s ss2 ih =>
    cases rs with
    | nil => simp [updateInstances, ih]
    | cons r rs2 => simp [updateInstances, ih]

/-- Every instance after a poll round arose from polling some previous
instance, with a result that is either the default pass or drawn from
the result list. -/
theorem mem_updateInstances (cfg : RolloutConfig) (t : Nat) :
    ∀ (rs : List Bool) (ss : List InstanceState) (s2 : InstanceState),
      s2 ∈ updateInstances cfg t rs ss →
      ∃ s ∈ ss, s2 = pollInstance cfg t true s ∨ ∃ r ∈ rs, s2 = pollInstance cfg t r s := by
  intro rs ss
  induction ss generalizing rs with
  | nil =>
    intro s2 h
    cases rs <;> simp [updateInstances] at h
  | cons s ss2 ih =>
    intro s2 h
    cases rs with
    | nil =>
      simp only [updateInstances] at h
      rcases List.mem_cons.mp h with h | h
      · exact ⟨s, List.mem_cons_self s ss2, Or.inl h⟩
      · obtain ⟨s0, hs0, hc⟩ := ih [] s2 h
        refine ⟨s0, List.mem_cons_of_mem s hs0, ?_⟩
        rcases hc with hc | ⟨r, hr, _⟩
        · exact Or.inl hc
        · simp at hr
    | cons r rs2 =>
      simp only [updateInstances] at h
      rcases List.mem_cons.mp h with h | h
      · exact ⟨s, List.mem_cons_self s ss2, Or.inr ⟨r, List.mem_cons_self r rs2, h⟩⟩
      · obtain ⟨s0, hs0, hc⟩ := ih rs2 s2 h
        refine ⟨s0, List.mem_cons_of_mem s hs0, ?_⟩
        rcases hc with hc | ⟨r2, hr2, hc⟩
        · exact Or.inl hc
        · exact Or.inr ⟨r2, List.mem_cons_of_mem r hr2, hc⟩

theorem getInst_cons_zero (s : InstanceState) (ss : List InstanceState) :
    getInst (s :: ss) 0 = s := rfl

theorem getInst_cons_succ (s : InstanceState) (ss : List InstanceState) (i : Nat) :
    getInst (s :: ss) (i + 1) = getInst ss i := by
  simp [getInst]

/-- Positional characterization of a poll round: the instance at a
position in range is the poll of the previous instance at that
position, with the result at that position (default pass). -/
theorem getInst_updateInstances (cfg : RolloutConfig) (t : Nat) :
    ∀ (ss : List InstanceState) (rs : List Bool) (i : Nat),
      getInst (updateInstances cfg t rs ss) i =
        if i < ss.length then pollInstance cfg t (rs.getD i true) (getInst ss i)
        else freshInstance := by
  intro ss
  induction ss with
  | nil =>
    intro rs i
    cases rs <;> simp [updateInstances, getInst]
  | cons s ss2 ih =>
    intro rs i
    cases rs with
    | nil =>
      cases i with
      | zero => simp [updateInstances, getInst_cons_zero]
      | succ j =>
        simp only [updateInstances, getInst_cons_succ, ih [] j]
        simp [Nat.succ_lt_succ_iff]
    | cons r rs2 =>
      cases i with
      | zero => simp [updateInstances, getInst_cons_zero]
      | succ j =>
        simp only [updateInstances, getInst_cons_succ, ih rs2 j]
        simp [Nat.succ_lt_succ_iff]

theorem getInst_replicate (n : Nat) (i : Nat) (hi : i < n) :
    getInst (List.replicate n freshInstance) i = freshInstance := by
  unfold getInst
  rw [List.getD_eq_getElem (List.replicate n freshInstance) freshInstance
        (by simpa using hi)]
  simp

/-- Polling an instance with a passing result, or a failing result
inside the start period, preserves a clean failure counter and keeps
the instance out of the unhealthy sub-state. -/
theorem pollInstance_clean (cfg : RolloutConfig) (t : Nat) (ok : Bool) (s : InstanceState)
    (hclean : s.consecFail = 0 ∧ s.sub ≠ SubState.unhealthy)
    (hok : ok = true ∨ t < cfg.startPeriod) :
    (pollInstance cfg t ok s).consecFail = 0 ∧
      (pollInstance cfg t ok s).sub ≠ SubState.unhealthy := by
  have hcase : ok = true ∨ (ok = false ∧ t < cfg.startPeriod) := by
    rcases hok with hok | hok
    · exact Or.inl hok
    · cases ok with
      | true => exact Or.inl rfl
      | false => exact Or.inr ⟨rfl, hok⟩
  rcases hcase with hok | ⟨hok, hsp⟩
  · subst hok
    unfold pollInstance
    by_cases hth : cfg.healthyThreshold ≤ s.consecSucc + 1
    · simp [hth]
    · simp [hth]; exact hclean.2
  · subst hok
    unfold pollInstance
    simp [hsp]
    exact hclean

/-- An instance in the healthy sub-state stays healthy or crosses into
unhealthy at the next poll; it never reverts to starting. -/
theorem pollInstance_of_healthy (cfg : RolloutConfig) (t : Nat) (ok : Bool)
    (s : InstanceState) (hs : s.sub = SubState.healthy) :
    (pollInstance cfg t ok s).sub = SubState.healthy ∨
      (pollInstance cfg t ok s).sub = SubState.unhealthy := by
  unfold pollInstance
  cases ok with
  | true =>
    by_cases hth : cfg.healthyThreshold ≤ s.consecSucc + 1
    · simp [hth]
    · simp [hth, hs]
  | false =>
    by_cases hsp : t < cfg.startPeriod
    · simp [hsp, hs]
    · by_cases hth : cfg.unhealthyThreshold ≤ s.consecFail + 1
      · simp [hsp, hth]
      · simp [hsp, hth, hs]

/-- The healthy sub-state is entered only by meeting the
consecutive-success threshold: an instance found healthy after a poll
either was healthy already or its consecutive-success counter has
reached the threshold. -/
theorem pollInstance_healthy_gated (cfg : RolloutConfig) (t : Nat) (ok : Bool)
    (s : InstanceState) (h : (pollInstance cfg t ok s).sub = SubState.healthy) :
    s.sub = SubState.healthy ∨
      cfg.healthyThreshold ≤ (pollInstance cfg t ok s).consecSucc := by
  unfold pollInstance at h ⊢
  cases ok with
  | true =>
    by_cases hth : cfg.healthyThreshold ≤ s.consecSucc + 1
    · exact Or.inr (by simp [hth])
    · simp [hth] at h
      exact Or.inl h
  | false =>
    by_cases hsp : t < cfg.startPeriod
    · simp [hsp] at h
      exact Or.inl h
    · by_cases hth : cfg.unhealthyThreshold ≤ s.consecFail + 1
      · simp [hsp, hth] at h
      · simp [hsp, hth] at h
        exact Or.inl h

/-- The next consecutive-failure counter of a poll is exactly the
per-instance simulation of that counter. -/
theorem pollInstance_consecFail (cfg : RolloutConfig) (t : Nat) (ok : Bool)
    (s : InstanceState) :
    (pollInstance cfg t ok s).consecFail = cfSim cfg t ok s.consecFail := by
  unfold pollInstance cfSim
  cases ok with
  | true => simp
  | false =>
    by_cases hsp : t < cfg.startPeriod
    · simp [hsp]
    · simp [hsp]

/-- A poll whose simulated failure counter stays below the unhealthy
threshold cannot move an instance into the unhealthy sub-state. -/
theorem pollInstance_sub_ne_unhealthy (cfg : RolloutConfig) (t : Nat) (ok : Bool)
    (s : InstanceState) (hs : s.sub ≠ SubState.unhealthy)
    (hbound : ¬ cfg.unhealthyThreshold ≤ cfSim cfg t ok s.consecFail) :
    (pollInstance cfg t ok s).sub ≠ SubState.unhealthy := by
  unfold pollInstance
  cases ok with
  | true =>
    by_cases hth : cfg.healthyThreshold ≤ s.consecSucc + 1
    · simp [hth]
    · simp [hth]; exact hs
  | false =>
    by_cases hsp : t < cfg.startPeriod
    · simp [hsp]; exact hs
    · have hth : ¬ cfg.unhealthyThreshold ≤ s.consecFail + 1 := by
        unfold cfSim at hbound
        simp [hsp] at hbound
        exact Nat.not_le.mpr hbound
      simp [hsp, hth]; exact hs

/-- A positional property of every in-range instance holds of every
member of the list. -/
theorem forall_mem_of_forall_getInst (insts : List InstanceState)
    (P : InstanceState → Prop)
    (h : ∀ i, i < insts.length → P (getInst insts i)) : ∀ s ∈ insts, P s := by
  intro s hs
  obtain ⟨⟨i, hi⟩, he⟩ := List.mem_iff_get.mp hs
  have hP := h i hi
  rw [getInst, List.getD_eq_getElem _ _ hi] at hP
  rw [List.get_eq_getElem] at he
  exact he ▸ hP

/-- An in-range positional access is a member. -/
theorem getInst_mem (insts : List InstanceState) (i : Nat) (hi : i < insts.length) :
    getInst insts i ∈ insts := by
  rw [getInst, List.getD_eq_getElem _ _ hi]
  exact List.getElem_mem hi

/-- A state whose phase left HEALTH_EVALUATION is frozen by the control
loop step. -/
theorem stepRollout_frozen (cfg : RolloutConfig) (t : Nat) (rs : List Bool)
    (st : RolloutState) (h : st.phase ≠ RolloutPhase.healthEvaluation) :
    stepRollout cfg t rs st = st := by
  unfold stepRollout
  simp [h]

/-- Step preservation for failures confined to the start period: a
clean, non-rolling-back state steps to a clean, non-rolling-back
state when every failing result of the round is early. -/
theorem stepRollout_clean (cfg : RolloutConfig) (t : Nat) (rs : List Bool)
    (st : RolloutState)
    (hfail : ∀ r ∈ rs, r = false → t < cfg.startPeriod)
    (hclean : ∀ s ∈ st.instances, s.consecFail = 0 ∧ s.sub ≠ SubState.unhealthy)
    (hph : st.phase ≠ RolloutPhase.rollingBack) :
    (∀ s ∈ (stepRollout cfg t rs st).instances,
        s.consecFail = 0 ∧ s.sub ≠ SubState.unhealthy) ∧
      (stepRollout cfg t rs st).phase ≠ RolloutPhase.rollingBack := by
  by_cases hp : st.phase = RolloutPhase.healthEvaluation
  · have hcl2 : ∀ s2 ∈ updateInstances cfg t rs st.instances,
        s2.consecFail = 0 ∧ s2.sub ≠ SubState.unhealthy := by
      intro s2 hs2
      obtain ⟨s0, hs0, hc⟩ := mem_updateInstances cfg t rs st.instances s2 hs2
      rcases hc with hc | ⟨r, hr, hc⟩
      · exact hc ▸ pollInstance_clean cfg t true s0 (hclean s0 hs0) (Or.inl rfl)
      · cases r with
        | true => exact hc ▸ pollInstance_clean cfg t true s0 (hclean s0 hs0) (Or.inl rfl)
        | false =>
          exact hc ▸ pollInstance_clean cfg t false s0 (hclean s0 hs0)
            (Or.inr (hfail false hr rfl))
    have hcu : countUnhealthy (updateInstances cfg t rs st.instances) = 0 := by
      unfold countUnhealthy
      apply List.countP_eq_zero.mpr
      intro s2 hs2
      have h2 := (hcl2 s2 hs2).2
      simp [h2]
    have hnr : ¬(cfg.tolerance < countUnhealthy (updateInstances cfg t rs st.instances) ∧
        t ≤ cfg.gracePeriod) := by
      rw [hcu]
      rintro ⟨hlt, _⟩
      exact Nat.not_lt_zero _ hlt
    unfold stepRollout
    simp only [hp, if_pos rfl, if_neg hnr]
    refine ⟨hcl2, ?_⟩
    by_cases hg : cfg.desiredCount ≤ countHealthy (updateInstances cfg t rs st.instances)
    · simp [hg]
    · simp [hg]
  · rw [stepRollout_frozen cfg t rs st hp]
    exact ⟨hclean, hph⟩

/-- Run preservation for failures confined to the start period: from a
clean, non-rolling-back state, a trace whose every failing result is
early visits no ROLLING_BACK state. -/
theorem run_no_rollback_of_early_failures (cfg : RolloutConfig) :
    ∀ (trace : List (Nat × List Bool)) (st : RolloutState),
      (∀ p ∈ trace, ∀ r ∈ p.2, r = false → p.1 < cfg.startPeriod) →
      (∀ s ∈ st.instances, s.consecFail = 0 ∧ s.sub ≠ SubState.unhealthy) →
      st.phase ≠ RolloutPhase.rollingBack →
      ∀ st2 ∈ runRolloutStates cfg st trace, st2.phase ≠ RolloutPhase.rollingBack := by
  intro trace
  induction trace with
  | nil =>
    intro st _ _ hph st2 h2
    simp [runRolloutStates] at h2
    exact h2 ▸ hph
  | cons p rest ih =>
    intro st htr hclean hph st2 h2
    obtain ⟨t, rs⟩ := p
    simp only [runRolloutStates] at h2
    rcases List.mem_cons.mp h2 with h2 | h2
    · exact h2 ▸ hph
    · have hstep := stepRollout_clean cfg t rs st
        (fun r hr hf => htr (t, rs) (List.mem_cons_self _ _) r hr hf) hclean hph
      exact ih (stepRollout cfg t rs st)
        (fun q hq => htr q (List.mem_cons_of_mem _ hq)) hstep.1 hstep.2 st2 h2

/-- Run preservation for the threshold-2 circuit breaker: when no
instance ever accumulates two consecutive counted failures (its
simulated failure counter stays below two over every prefix of the
trace), no visited state is ROLLING_BACK. -/
theorem run_no_rollback_of_single_failures (cfg : RolloutConfig)
    (hth : cfg.unhealthyThreshold = 2) :
    ∀ (trace : List (Nat × List Bool)) (st : RolloutState),
      (∀ p ∈ trace, p.2.length = cfg.desiredCount) →
      st.phase ≠ RolloutPhase.rollingBack →
      (st.phase = RolloutPhase.healthEvaluation →
        st.instances.length = cfg.desiredCount ∧
        (∀ i, (getInst st.instances i).sub ≠ SubState.unhealthy) ∧
        (∀ i pre suf, trace = pre ++ suf →
          cfRun cfg i ((getInst st.instances i).consecFail) pre ≤ 1)) →
      ∀ st2 ∈ runRolloutStates cfg st trace, st2.phase ≠ RolloutPhase.rollingBack := by
  intro trace
  induction trace with
  | nil =>
    intro st _ hph _ st2 h2
    simp [runRolloutStates] at h2
    exact h2 ▸ hph
  | cons p rest ih =>
    intro st htr hph hinv st2 h2
    obtain ⟨t, rs⟩ := p
    simp only [runRolloutStates] at h2
    rcases List.mem_cons.mp h2 with h2 | h2
    · exact h2 ▸ hph
    · by_cases hp : st.phase = RolloutPhase.healthEvaluation
      · obtain ⟨hlen, hsub, hcf⟩ := hinv hp
        have hrslen : rs.length = cfg.desiredCount := htr (t, rs) (List.mem_cons_self _ _)
        have hpos : ∀ i, (getInst (updateInstances cfg t rs st.instances) i).consecFail =
              cfSim cfg t (rs.getD i true) ((getInst st.instances i).consecFail) ∧
            (getInst (updateInstances cfg t rs st.instances) i).sub ≠ SubState.unhealthy := by
          intro i
          have hb : cfSim cfg t (rs.getD i true) ((getInst st.instances i).consecFail) ≤ 1 :=
            hcf i [(t, rs)] rest rfl
          by_cases hi : i < st.instances.length
          · rw [getInst_updateInstances cfg t st.instances rs i, if_pos hi]
            refine ⟨pollInstance_consecFail cfg t (rs.getD i true) (getInst st.instances i), ?_⟩
            apply pollInstance_sub_ne_unhealthy cfg t (rs.getD i true)
              (getInst st.instances i) (hsub i)
            rw [hth]
            omega
          · have hfresh : getInst st.instances i = freshInstance := by
              unfold getInst
              exact List.getD_eq_default _ _ (Nat.le_of_not_lt hi)
            have hrs : rs.getD i true = true := by
              apply List.getD_eq_default
              rw [hrslen, ← hlen]
              exact Nat.le_of_not_lt hi
            rw [getInst_updateInstances cfg t st.instances rs i, if_neg hi]
            rw [hfresh, hrs]
            exact ⟨rfl, by simp [freshInstance]⟩
        have hcu : countUnhealthy (updateInstances cfg t rs st.instances) = 0 := by
          unfold countUnhealthy
          apply List.countP_eq_zero.mpr
          apply forall_mem_of_forall_getInst (updateInstances cfg t rs st.instances)
            (fun s => ¬((s.sub == SubState.unhealthy) = true))
          intro i _
          have h3 := (hpos i).2
          simp [h3]
        have hnr : ¬(cfg.tolerance < countUnhealthy (updateInstances cfg t rs st.instances) ∧
            t ≤ cfg.gracePeriod) := by
          rw [hcu]
          rintro ⟨hlt, _⟩
          exact Nat.not_lt_zero _ hlt
        have hstep : stepRollout cfg t rs st =
            { instances := updateInstances cfg t rs st.instances
              targets := registerTargets st.targets (updateInstances cfg t rs st.instances)
              phase :=
                if cfg.desiredCount ≤ countHealthy (updateInstances cfg t rs st.instances)
                then RolloutPhase.steady else RolloutPhase.healthEvaluation } := by
          unfold stepRollout
          rw [if_pos hp]
          simp only [if_neg hnr]
        refine ih (stepRollout cfg t rs st)
          (fun q hq => htr q (List.mem_cons_of_mem _ hq)) ?_ ?_ st2 h2
        · rw [hstep]
          by_cases hg : cfg.desiredCount ≤
              countHealthy (updateInstances cfg t rs st.instances)
          · simp [hg]
          · simp [hg]
        · intro hp2
          refine ⟨?_, ?_, ?_⟩
          · rw [hstep]
            show (updateInstances cfg t rs st.instances).length = cfg.desiredCount
            rw [length_updateInstances]
            exact hlen
          · intro i
            rw [hstep]
            exact (hpos i).2
          · intro i pre suf hsplit
            have h4 := hcf i ((t, rs) :: pre) suf (by rw [hsplit]; rfl)
            rw [hstep]
            show cfRun cfg i
              ((getInst (updateInstances cfg t rs st.instances) i).consecFail) pre ≤ 1
            rw [(hpos i).1]
            exact h4
      · rw [stepRollout_frozen cfg t rs st hp] at h2
        exact ih st (fun q hq => htr q (List.mem_cons_of_mem _ hq)) hph
          (fun hpe => absurd hpe hp) st2 h2

theorem healthyAt_iff (insts : List InstanceState) (i : Nat) :
    healthyAt insts i = true ↔
      i < insts.length ∧ (getInst insts i).sub = SubState.healthy := by
  unfold healthyAt
  simp [Bool.and_eq_true]

theorem unhealthyAt_iff (insts : List InstanceState) (i : Nat) :
    unhealthyAt insts i = true ↔
      i < insts.length ∧ (getInst insts i).sub = SubState.unhealthy := by
  unfold unhealthyAt
  simp [Bool.and_eq_true]

/-- Membership in the maintained target set: a registered position was
either already registered and not deregistered as unhealthy, or is
currently healthy. -/
theorem mem_registerTargets (targets : List Nat) (insts : List InstanceState)
    (i : Nat) (hi : i ∈ registerTargets targets insts) :
    (i ∈ targets ∧ unhealthyAt insts i = false) ∨ healthyAt insts i = true := by
  unfold registerTargets at hi
  rcases List.mem_append.mp hi with hi | hi
  · obtain ⟨him, hcond⟩ := List.mem_filter.mp hi
    left
    refine ⟨him, ?_⟩
    simpa using hcond
  · obtain ⟨_, hcond⟩ := List.mem_filter.mp hi
    right
    simp [Bool.and_eq_true] at hcond
    exact hcond.1

/-- One control-loop step preserves the target-set invariant: every
registered position holds a healthy instance. -/
theorem stepRollout_targets_healthy (cfg : RolloutConfig) (t : Nat) (rs : List Bool)
    (st : RolloutState)
    (hinv : ∀ i ∈ st.targets, healthyAt st.instances i = true) :
    ∀ i ∈ (stepRollout cfg t rs st).targets,
      healthyAt (stepRollout cfg t rs st).instances i = true := by
  by_cases hp : st.phase = RolloutPhase.healthEvaluation
  · have hstep_t : (stepRollout cfg t rs st).targets =
        registerTargets st.targets (updateInstances cfg t rs st.instances) := by
      unfold stepRollout
      rw [if_pos hp]
    have hstep_i : (stepRollout cfg t rs st).instances =
        updateInstances cfg t rs st.instances := by
      unfold stepRollout
      rw [if_pos hp]
    rw [hstep_t, hstep_i]
    intro i hi
    rcases mem_registerTargets _ _ i hi with ⟨him, hnu⟩ | hh
    · have hold := (healthyAt_iff _ _).mp (hinv i him)
      have hlen2 : (updateInstances cfg t rs st.instances).length =
          st.instances.length := length_updateInstances cfg t rs st.instances
      apply (healthyAt_iff _ _).mpr
      have hnew : getInst (updateInstances cfg t rs st.instances) i =
          pollInstance cfg t (rs.getD i true) (getInst st.instances i) := by
        rw [getInst_updateInstances, if_pos hold.1]
      refine ⟨by rw [hlen2]; exact hold.1, ?_⟩
      rw [hnew]
      rcases pollInstance_of_healthy cfg t (rs.getD i true)
          (getInst st.instances i) hold.2 with hch | hcu
      · exact hch
      · exfalso
        have hcontra := (unhealthyAt_iff
            (updateInstances cfg t rs st.instances) i).mpr
          ⟨by rw [hlen2]; exact hold.1, by rw [hnew]; exact hcu⟩
        rw [hnu] at hcontra
        cases hcontra
    · exact hh
  · rw [stepRollout_frozen cfg t rs st hp]
    exact hinv

/-- One control-loop step preserves the STEADY gate: a state in STEADY
has the desired count of healthy instances. -/
theorem stepRollout_steady_count (cfg : RolloutConfig) (t : Nat) (rs : List Bool)
    (st : RolloutState)
    (hinv : st.phase = RolloutPhase.steady →
      cfg.desiredCount ≤ countHealthy st.instances) :
    (stepRollout cfg t rs st).phase = RolloutPhase.steady →
      cfg.desiredCount ≤ countHealthy (stepRollout cfg t rs st).instances := by
  by_cases hp : st.phase = RolloutPhase.healthEvaluation
  · intro hs
    have hs2 : (if cfg.tolerance < countUnhealthy (updateInstances cfg t rs st.instances) ∧
          t ≤ cfg.gracePeriod then RolloutPhase.rollingBack
        else if cfg.desiredCount ≤ countHealthy (updateInstances cfg t rs st.instances)
          then RolloutPhase.steady else RolloutPhase.healthEvaluation) =
        RolloutPhase.steady := by
      have hstep_p : (stepRollout cfg t rs st).phase =
          (if cfg.tolerance < countUnhealthy (updateInstances cfg t rs st.instances) ∧
              t ≤ cfg.gracePeriod then RolloutPhase.rollingBack
            else if cfg.desiredCount ≤ countHealthy (updateInstances cfg t rs st.instances)
              then RolloutPhase.steady else RolloutPhase.healthEvaluation) := by
        unfold stepRollout
        rw [if_pos hp]
      rw [← hstep_p]
      exact hs
    have hstep_i : (stepRollout cfg t rs st).instances =
        updateInstances cfg t rs st.instances := by
      unfold stepRollout
      rw [if_pos hp]
    rw [hstep_i]
    by_cases hr : cfg.tolerance < countUnhealthy (updateInstances cfg t rs st.instances) ∧
        t ≤ cfg.gracePeriod
    · rw [if_pos hr] at hs2
      cases hs2
    · rw [if_neg hr] at hs2
      by_cases hg : cfg.desiredCount ≤ countHealthy (updateInstances cfg t rs st.instances)
      · exact hg
      · rw [if_neg hg] at hs2
        cases hs2
  · rw [stepRollout_frozen cfg t rs st hp]
    exact hinv

/-- Run preservation of the target-set and STEADY invariants. -/
theorem run_targets_healthy (cfg : RolloutConfig) :
    ∀ (trace : List (Nat × List Bool)) (st : RolloutState),
      (∀ i ∈ st.targets, healthyAt st.instances i = true) →
      (st.phase = RolloutPhase.steady → cfg.desiredCount ≤ countHealthy st.instances) →
      ∀ st2 ∈ runRolloutStates cfg st trace,
        (∀ i ∈ st2.targets, healthyAt st2.instances i = true) ∧
        (st2.phase = RolloutPhase.steady →
          cfg.desiredCount ≤ countHealthy st2.instances) := by
  intro trace
  induction trace with
  | nil =>
    intro st htg hsd st2 h2
    simp [runRolloutStates] at h2
    exact h2 ▸ ⟨htg, hsd⟩
  | cons p rest ih =>
    intro st htg hsd st2 h2
    obtain ⟨t, rs⟩ := p
    simp only [runRolloutStates] at h2
    rcases List.mem_cons.mp h2 with h2 | h2
    · exact h2 ▸ ⟨htg, hsd⟩
    · exact ih (stepRollout cfg t rs st)
        (stepRollout_targets_healthy cfg t rs st htg)
        (stepRollout_steady_count cfg t rs st hsd) st2 h2

/-- Under the threshold-2 circuit breaker with zero tolerance, two
consecutive failed polls of a fresh instance, both outside the start
period and the second inside the grace period, drive the rollout from
the start of health evaluation into ROLLING_BACK. -/
theorem two_consecutive_failures_roll_back (cfg : RolloutConfig)
    (hth : cfg.unhealthyThreshold = 2) (htol : cfg.tolerance = 0)
    (t1 t2 : Nat) (rs1 rs2 : List Bool) (i : Nat)
    (hi : i < cfg.desiredCount)
    (ht1 : cfg.startPeriod ≤ t1) (ht2 : cfg.startPeriod ≤ t2)
    (hg : t2 ≤ cfg.gracePeriod)
    (hf1 : rs1.getD i true = false) (hf2 : rs2.getD i true = false) :
    (runRollout cfg (initState cfg) [(t1, rs1), (t2, rs2)]).phase =
      RolloutPhase.rollingBack := by
  have hlen0 : (initState cfg).instances.length = cfg.desiredCount := by
    show (List.replicate cfg.desiredCount freshInstance).length = cfg.desiredCount
    exact List.length_replicate cfg.desiredCount freshInstance
  have hi0 : i < (initState cfg).instances.length := by rw [hlen0]; exact hi
  have hlen1 : (updateInstances cfg t1 rs1 (initState cfg).instances).length =
      cfg.desiredCount := by
    rw [length_updateInstances, hlen0]
  have h1 : getInst (updateInstances cfg t1 rs1 (initState cfg).instances) i =
      { sub := SubState.starting, consecFail := 1, consecSucc := 0 } := by
    rw [getInst_updateInstances cfg t1 (initState cfg).instances rs1 i, if_pos hi0]
    have hg0 : getInst (initState cfg).instances i = freshInstance := by
      show getInst (List.replicate cfg.desiredCount freshInstance) i = freshInstance
      exact getInst_replicate cfg.desiredCount i hi
    rw [hg0, hf1]
    unfold pollInstance freshInstance
    simp [Nat.not_lt.mpr ht1, hth]
  have hsub1 : ∀ s ∈ updateInstances cfg t1 rs1 (initState cfg).instances,
      s.sub ≠ SubState.unhealthy := by
    intro s2 hs2
    obtain ⟨s0, hs0, hc⟩ := mem_updateInstances cfg t1 rs1 (initState cfg).instances s2 hs2
    have hs0f : s0 = freshInstance := List.eq_of_mem_replicate hs0
    subst hs0f
    have hfresh_clean : freshInstance.consecFail = 0 ∧
        freshInstance.sub ≠ SubState.unhealthy := by
      refine ⟨rfl, ?_⟩
      unfold freshInstance
      simp
    rcases hc with hc | ⟨r, _, hc⟩
    · exact hc ▸ (pollInstance_clean cfg t1 true freshInstance hfresh_clean (Or.inl rfl)).2
    · cases r with
      | true =>
        exact hc ▸ (pollInstance_clean cfg t1 true freshInstance hfresh_clean (Or.inl rfl)).2
      | false =>
        refine hc ▸ pollInstance_sub_ne_unhealthy cfg t1 false freshInstance
          hfresh_clean.2 ?_
        unfold cfSim freshInstance
        rw [hth]
        by_cases hsp : t1 < cfg.startPeriod
        · simp [hsp]
        · simp [hsp]
  have hcu1 : countUnhealthy (updateInstances cfg t1 rs1 (initState cfg).instances) = 0 := by
    unfold countUnhealthy
    apply List.countP_eq_zero.mpr
    intro s2 hs2
    have h3 := hsub1 s2 hs2
    simp [h3]
  have hch1 : countHealthy (updateInstances cfg t1 rs1 (initState cfg).instances) <
      cfg.desiredCount := by
    have hle : countHealthy (updateInstances cfg t1 rs1 (initState cfg).instances) ≤
        cfg.desiredCount := by
      unfold countHealthy
      rw [← hlen1]
      exact List.countP_le_length _
    rcases Nat.lt_or_ge (countHealthy (updateInstances cfg t1 rs1 (initState cfg).instances))
        cfg.desiredCount with h | h
    · exact h
    · exfalso
      have heq : countHealthy (updateInstances cfg t1 rs1 (initState cfg).instances) =
          (updateInstances cfg t1 rs1 (initState cfg).instances).length := by
        rw [hlen1]
        exact Nat.le_antisymm (hlen1 ▸ hle) h
      have hall := List.countP_eq_length.mp heq
      have hmem : getInst (updateInstances cfg t1 rs1 (initState cfg).instances) i ∈
          updateInstances cfg t1 rs1 (initState cfg).instances :=
        getInst_mem _ i (by rw [hlen1]; exact hi)
      have := hall _ hmem
      rw [h1] at this
      simp at this
  have hst1 : stepRollout cfg t1 rs1 (initState cfg) =
      { instances := updateInstances cfg t1 rs1 (initState cfg).instances
        targets := registerTargets (initState cfg).targets
          (updateInstances cfg t1 rs1 (initState cfg).instances)
        phase := RolloutPhase.healthEvaluation } := by
    have hc1 : ¬(cfg.tolerance <
        countUnhealthy (updateInstances cfg t1 rs1 (initState cfg).instances) ∧
        t1 ≤ cfg.gracePeriod) := by
      rw [hcu1, htol]
      rintro ⟨hlt, _⟩
      exact Nat.lt_irrefl 0 hlt
    have hc2 : ¬(cfg.desiredCount ≤
        countHealthy (updateInstances cfg t1 rs1 (initState cfg).instances)) :=
      Nat.not_le.mpr hch1
    have hp0 : (initState cfg).phase = RolloutPhase.healthEvaluation := rfl
    unfold stepRollout
    rw [if_pos hp0]
    simp only [if_neg hc1, if_neg hc2]
  have hrun : runRollout cfg (initState cfg) [(t1, rs1), (t2, rs2)] =
      stepRollout cfg t2 rs2 (stepRollout cfg t1 rs1 (initState cfg)) := rfl
  rw [hrun, hst1]
  have h2 : getInst (updateInstances cfg t2 rs2
        (updateInstances cfg t1 rs1 (initState cfg).instances)) i =
      { sub := SubState.unhealthy, consecFail := 2, consecSucc := 0 } := by
    rw [getInst_updateInstances cfg t2
        (updateInstances cfg t1 rs1 (initState cfg).instances) rs2 i,
      if_pos (by rw [hlen1]; exact hi), h1, hf2]
    unfold pollInstance
    simp [Nat.not_lt.mpr ht2, hth]
  have hcu2 : 0 < countUnhealthy (updateInstances cfg t2 rs2
      (updateInstances cfg t1 rs1 (initState cfg).instances)) := by
    unfold countUnhealthy
    apply List.countP_pos_iff.mpr
    refine ⟨getInst (updateInstances cfg t2 rs2
        (updateInstances cfg t1 rs1 (initState cfg).instances)) i, ?_, ?_⟩
    · apply getInst_mem
      rw [length_updateInstances, hlen1]
      exact hi
    · rw [h2]
      rfl
  have hc1 : cfg.tolerance < countUnhealthy (updateInstances cfg t2 rs2
        (updateInstances cfg t1 rs1 (initState cfg).instances)) ∧
      t2 ≤ cfg.gracePeriod := by
    rw [htol]
    exact ⟨hcu2, hg⟩
  unfold stepRollout
  rw [if_pos rfl]
  show (if cfg.tolerance < countUnhealthy (updateInstances cfg t2 rs2
        (updateInstances cfg t1 rs1 (initState cfg).instances)) ∧
      t2 ≤ cfg.gracePeriod then RolloutPhase.rollingBack
    else if cfg.desiredCount ≤ countHealthy (updateInstances cfg t2 rs2
        (updateInstances cfg t1 rs1 (initState cfg).instances))
      then RolloutPhase.steady else RolloutPhase.healthEvaluation) =
    RolloutPhase.rollingBack
  rw [if_pos hc1]

/- == Lemmas: container environment == -/

/-- PORT accesses to "3000" in envVars, whatever the configuration. -/
theorem objGet_envVars_port (cfg : AppConfig) :
    objGet "PORT" (envVars cfg) = some "3000" :=
  objGet_objSet_self (objFromList cfg.environmentVariables) "PORT" "3000"

/-- Any key other than PORT accesses in envVars to its value in the
spread of the configured map. -/
theorem objGet_envVars_ne (cfg : AppConfig) (k : String) (hk : k ≠ "PORT") :
    objGet k (envVars cfg) = objGet k (objFromList cfg.environmentVariables) :=
  objGet_objSet_ne (objFromList cfg.environmentVariables) "PORT" k "3000" hk

/-- The environment object rebuilt by the addContainer reduce is
access-equivalent to envVars. -/
theorem objGet_containerEnvironment (cfg : AppConfig) (k : String) :
    objGet k (containerEnvironment cfg) = objGet k (envVars cfg) := by
  unfold containerEnvironment
  by_cases hk : k ∈ objKeys (envVars cfg)
  · obtain ⟨v, hv⟩ := objGet_isSome_of_mem_keys (envVars cfg) k hk
    unfold buildByKeys
    rw [objGet_foldl_objSet_of_mem _ (objKeys (envVars cfg)) [] k hk, hv]
    simp [hv]
  · rw [objGet_buildByKeys_of_not_mem _ _ k hk,
      objGet_eq_none_of_not_mem_keys (envVars cfg) k hk]

/- == Claim theorems == -/

/-- C1: for every value of the AURORA_READER_REPLICA flag (including
unset) the Aurora reader-replica instance is in the composition iff its
guarding condition evaluates true; the condition defaults to true when
the flag is unset and is false exactly for the explicit disabling
value, so an unset flag includes the replica and the value "false"
excludes it, leaving the readers list empty. -/
theorem aurora_reader_replica_gated (flag : Option String) :
    (((appStackResources flag).map Resource.id).contains replicaInstanceId =
      auroraReaderCondition flag) ∧
    (flag = none → auroraReaderCondition flag = true ∧
      ((appStackResources flag).map Resource.id).contains replicaInstanceId = true) ∧
    (flag = some "false" → auroraReaderCondition flag = false ∧
      auroraReaders flag = [] ∧
      ((appStackResources flag).map Resource.id).contains replicaInstanceId = false) := by
  cases flag with
  | none =>
    refine ⟨by decide, ?_, ?_⟩
    · intro _
      decide
    · intro h
      cases h
  | some v =>
    by_cases hv : v = "false"
    · subst hv
      refine ⟨by decide, ?_, ?_⟩
      · intro h
        cases h
      · intro _
        decide
    · have hcond : auroraReaderCondition (some v) = true := by
        simp [auroraReaderCondition]
        exact hv
      have hr : auroraReaders (some v) =
          [{ id := replicaInstanceId, refs := ["AuroraServerlessCluster"] }] := by
        unfold auroraReaders
        rw [if_pos hcond]
      refine ⟨?_, ?_, ?_⟩
      · rw [hcond]
        show ((appStackResourcesPre ++ auroraReaders (some v) ++
            appStackResourcesPost).map Resource.id).contains replicaInstanceId = true
        rw [hr]
        decide
      · intro h
        cases h
      · intro h
        exfalso
        rw [Option.some.injEq] at h
        exact hv h

/-- C2: when the reader-replica condition is false the built graph
contains no node for the replica and no reference to it from any node;
resolving a reference to the pruned replica fails with
DanglingReference, while every reference actually present in the graph
resolves against a declared node. -/
theorem no_reference_to_pruned_replica (flag : Option String)
    (h : auroraReaderCondition flag = false) :
    ((appStackResources flag).map Resource.id).contains replicaInstanceId = false ∧
    (appStackResources flag).all
      (fun r => !(r.refs.contains replicaInstanceId)) = true ∧
    resolveRef ((appStackResources flag).map Resource.id) replicaInstanceId =
      Except.error CompositionError.danglingReference ∧
    (appStackResources flag).all
      (fun r => r.refs.all
        (fun tgt => ((appStackResources flag).map Resource.id).contains tgt)) = true := by
  have hr : auroraReaders flag = [] := by
    unfold auroraReaders
    rw [h]
    rfl
  have hres : appStackResources flag = appStackResourcesPre ++ appStackResourcesPost := by
    unfold appStackResources
    rw [hr]
    simp
  rw [hres]
  refine ⟨by decide, by decide, by rfl, by decide⟩

/-- C2 witness: the invariants instantiated at the explicit disabling
value of the flag. -/
theorem no_reference_to_pruned_replica_witness :
    ((appStackResources (some "false")).map Resource.id).contains replicaInstanceId = false ∧
    (appStackResources (some "false")).all
      (fun r => !(r.refs.contains replicaInstanceId)) = true ∧
    resolveRef ((appStackResources (some "false")).map Resource.id) replicaInstanceId =
      Except.error CompositionError.danglingReference ∧
    (appStackResources (some "false")).all
      (fun r => r.refs.all
        (fun tgt => ((appStackResources (some "false")).map Resource.id).contains tgt)) = true :=
  no_reference_to_pruned_replica (some "false") (by decide)

/-- C1 witness: the gate instantiated at the unset flag and at the
explicit disabling value. -/
theorem aurora_reader_replica_gated_witness :
    (auroraReaderCondition none = true ∧
      ((appStackResources none).map Resource.id).contains replicaInstanceId = true) ∧
    (auroraReaderCondition (some "false") = false ∧
      auroraReaders (some "false") = [] ∧
      ((appStackResources (some "false")).map Resource.id).contains
        replicaInstanceId = false) :=
  ⟨(aurora_reader_replica_gated none).2.1 rfl,
   (aurora_reader_replica_gated (some "false")).2.2 rfl⟩

/-- C3: an instance whose health checks fail strictly before the start
period elapses never causes ROLLING_BACK, for every configuration and
trace; and in the scenario of app-stack.ts (desired count 2, start
period 120s, interval 30s, unhealthy threshold 3) with both new
instances failing only during the first 90 seconds, the rollout
terminates STEADY having never visited ROLLING_BACK. -/
theorem start_period_failures_never_roll_back :
    (∀ (cfg : RolloutConfig) (trace : List (Nat × List Bool)),
      (∀ p ∈ trace, ∀ r ∈ p.2, r = false → p.1 < cfg.startPeriod) →
      (runRolloutStates cfg (initState cfg) trace).all
        (fun st => st.phase != RolloutPhase.rollingBack) = true) ∧
    (runRollout scenarioRolloutConfig (initState scenarioRolloutConfig)
        scenarioTrace).phase = RolloutPhase.steady ∧
    (runRolloutStates scenarioRolloutConfig (initState scenarioRolloutConfig)
        scenarioTrace).all (fun st => st.phase != RolloutPhase.rollingBack) = true := by
  refine ⟨?_, by decide, by decide⟩
  intro cfg trace htr
  apply List.all_eq_true.mpr
  intro st hst
  have hne := run_no_rollback_of_early_failures cfg trace (initState cfg) htr
    (fun s hs => by
      have hsf : s = freshInstance := List.eq_of_mem_replicate hs
      subst hsf
      exact ⟨rfl, by simp [freshInstance]⟩)
    (fun hp => nomatch hp) st hst
  simpa using hne

/-- C3 witness: the general statement applied to the scenario
configuration and trace (every failure there is at a time below the
120-second start period). -/
theorem start_period_failures_never_roll_back_witness :
    (runRolloutStates scenarioRolloutConfig (initState scenarioRolloutConfig)
      scenarioTrace).all (fun st => st.phase != RolloutPhase.rollingBack) = true :=
  start_period_failures_never_roll_back.1 scenarioRolloutConfig scenarioTrace (by decide)

/-- C4: with unhealthy threshold 2 and tolerance 0, two consecutive
failed polls of any new instance, outside the start period and within
the grace period, transition the rollout to ROLLING_BACK; and a trace
in which no instance ever accumulates two consecutive counted failures
never visits ROLLING_BACK. -/
theorem circuit_breaker_threshold_two (cfg : RolloutConfig)
    (hth : cfg.unhealthyThreshold = 2) (htol : cfg.tolerance = 0) :
    (∀ (t1 t2 : Nat) (rs1 rs2 : List Bool) (i : Nat),
      i < cfg.desiredCount → cfg.startPeriod ≤ t1 → cfg.startPeriod ≤ t2 →
      t2 ≤ cfg.gracePeriod → rs1.getD i true = false → rs2.getD i true = false →
      (runRollout cfg (initState cfg) [(t1, rs1), (t2, rs2)]).phase =
        RolloutPhase.rollingBack) ∧
    (∀ trace : List (Nat × List Bool),
      (∀ p ∈ trace, p.2.length = cfg.desiredCount) →
      (∀ i pre suf, trace = pre ++ suf → cfRun cfg i 0 pre ≤ 1) →
      (runRolloutStates cfg (initState cfg) trace).all
        (fun st => st.phase != RolloutPhase.rollingBack) = true) := by
  constructor
  · intro t1 t2 rs1 rs2 i hi ht1 ht2 hg hf1 hf2
    exact two_consecutive_failures_roll_back cfg hth htol t1 t2 rs1 rs2 i
      hi ht1 ht2 hg hf1 hf2
  · intro trace htr hcf
    apply List.all_eq_true.mpr
    intro st hst
    have hfresh : ∀ i, getInst (initState cfg).instances i = freshInstance := by
      intro i
      show getInst (List.replicate cfg.desiredCount freshInstance) i = freshInstance
      by_cases hi : i < cfg.desiredCount
      · exact getInst_replicate cfg.desiredCount i hi
      · unfold getInst
        apply List.getD_eq_default
        rw [List.length_replicate]
        exact Nat.le_of_not_lt hi
    have hne := run_no_rollback_of_single_failures cfg hth trace (initState cfg) htr
      (fun hp => nomatch hp)
      (fun _ => by
        refine ⟨List.length_replicate cfg.desiredCount freshInstance, ?_, ?_⟩
        · intro i
          rw [hfresh i]
          simp [freshInstance]
        · intro i pre suf hsplit
          rw [hfresh i]
          exact hcf i pre suf hsplit) st hst
    simpa using hne

/-- C4 witness: the rollback branch at a concrete configuration drawn
from the target-group health check (threshold 2), with instance 0
failing the polls at 60s and 120s. -/
theorem circuit_breaker_threshold_two_witness :
    (runRollout
        { desiredCount := 2, interval := 60, startPeriod := 0
          unhealthyThreshold := appTargetGroupHealthCheck.unhealthyThresholdCount
          healthyThreshold := appTargetGroupHealthCheck.healthyThresholdCount
          gracePeriod := 300, tolerance := 0 }
        (initState
          { desiredCount := 2, interval := 60, startPeriod := 0
            unhealthyThreshold := appTargetGroupHealthCheck.unhealthyThresholdCount
            healthyThreshold := appTargetGroupHealthCheck.healthyThresholdCount
            gracePeriod := 300, tolerance := 0 })
        [(60, [false, true]), (120, [false, true])]).phase =
      RolloutPhase.rollingBack :=
  (circuit_breaker_threshold_two
      { desiredCount := 2, interval := 60, startPeriod := 0
        unhealthyThreshold := appTargetGroupHealthCheck.unhealthyThresholdCount
        healthyThreshold := appTargetGroupHealthCheck.healthyThresholdCount
        gracePeriod := 300, tolerance := 0 } rfl rfl).1
    60 120 [false, true] [false, true] 0 (by decide) (by decide) (by decide)
    (by decide) (by decide) (by decide)

/-- C5 counterexample: with every required environment input absent,
the AppStack constructor does not fail — TypeScript non-null assertions
are erased at runtime — so it returns a successful composition of all
ten declarations, the upload bucket carrying an undefined name, and in
particular never the MissingRequiredInput error the claim requires. -/
theorem missing_inputs_do_not_fail :
    buildAppStack "123456789012" emptyEnv =
      Except.ok (appStackDecls "123456789012" emptyEnv) ∧
    (appStackDecls "123456789012" emptyEnv).length = 10 ∧
    objGet "bucketName" (uploadBucketDecl emptyEnv).props = some none ∧
    buildAppStack "123456789012" emptyEnv ≠
      Except.error CompositionError.missingRequiredInput := by
  refine ⟨rfl, rfl, by decide, ?_⟩
  intro h
  exact nomatch h

/-- C5 amended: for every environment the constructor succeeds without
any validation, materializing every declaration and passing each
possibly-undefined input straight into the corresponding property, as
shown for the upload bucket name. -/
theorem build_app_stack_total (account : String) (env : Env) :
    buildAppStack account env = Except.ok (appStackDecls account env) ∧
    (appStackDecls account env).length = 10 ∧
    uploadBucketDecl env ∈ appStackDecls account env ∧
    objGet "bucketName" (uploadBucketDecl env).props = some env.uploadBucketName := by
  refine ⟨rfl, rfl, ?_, ?_⟩
  · unfold appStackDecls
    simp
  · unfold uploadBucketDecl objGet
    simp

/-- C6 counterexample: the CI identity is granted S3 object writes on
the static-assets bucket, an action outside the constrained set of
image push, service update and cache invalidation enumerated by the
claim. -/
theorem ci_permissions_exceed_constrained_set :
    staticBucketObjectsStatement ∈ ciPolicyStatements ∧
    "s3:PutObject" ∈ staticBucketObjectsStatement.actions ∧
    constrainedCiAction "s3:PutObject" = false := by
  refine ⟨by decide, by decide, by decide⟩

/-- C6 amended: every permission attached to the CI identity lies
within the constrained set extended by static-asset synchronization on
the static bucket, and every wildcard-resource statement carries only
task-definition read/registration, role passing or registry login. -/
theorem ci_permissions_within_extended_set :
    ciPolicyStatements.all (fun s => s.actions.all
      (fun a => constrainedCiAction a || staticAssetSyncAction a)) = true ∧
    ciPolicyStatements.all (fun s =>
      s.resources.all (fun r => r != PolicyResource.star) ||
      s.actions.all (fun a => wildcardResourceAction a)) = true := by
  refine ⟨by decide, by decide⟩

/-- C7: in every state reachable by the rollout control loop, every
member of the load-balancing target set is an instance in the healthy
sub-state — never starting or unhealthy; a state in STEADY holds the
desired count of healthy instances, and the healthy sub-state itself is
entered only at the consecutive-success threshold, the same gate the
STEADY count evaluates. -/
theorem targets_only_healthy (cfg : RolloutConfig) (trace : List (Nat × List Bool))
    (st : RolloutState) (hst : st ∈ runRolloutStates cfg (initState cfg) trace) :
    (∀ i ∈ st.targets, healthyAt st.instances i = true) ∧
    (st.phase = RolloutPhase.steady → cfg.desiredCount ≤ countHealthy st.instances) ∧
    (∀ (t : Nat) (ok : Bool) (s : InstanceState),
      (pollInstance cfg t ok s).sub = SubState.healthy →
      s.sub = SubState.healthy ∨
        cfg.healthyThreshold ≤ (pollInstance cfg t ok s).consecSucc) := by
  have h := run_targets_healthy cfg trace (initState cfg)
    (fun i hi => nomatch hi) (fun hp => nomatch hp) st hst
  exact ⟨h.1, h.2, fun t ok s hh => pollInstance_healthy_gated cfg t ok s hh⟩

/-- C7 witness: after one passing round under a threshold-1
configuration both instances are registered, and the registered
position 0 is healthy. -/
theorem targets_only_healthy_witness :
    healthyAt (stepRollout
        { desiredCount := 2, interval := 30, startPeriod := 0, unhealthyThreshold := 2
          healthyThreshold := 1, gracePeriod := 300, tolerance := 0 }
        0 [true, true]
        (initState
          { desiredCount := 2, interval := 30, startPeriod := 0, unhealthyThreshold := 2
            healthyThreshold := 1, gracePeriod := 300, tolerance := 0 })).instances
      0 = true :=
  (targets_only_healthy
      { desiredCount := 2, interval := 30, startPeriod := 0, unhealthyThreshold := 2
        healthyThreshold := 1, gracePeriod := 300, tolerance := 0 }
      [(0, [true, true])]
      (stepRollout
        { desiredCount := 2, interval := 30, startPeriod := 0, unhealthyThreshold := 2
          healthyThreshold := 1, gracePeriod := 300, tolerance := 0 }
        0 [true, true]
        (initState
          { desiredCount := 2, interval := 30, startPeriod := 0, unhealthyThreshold := 2
            healthyThreshold := 1, gracePeriod := 300, tolerance := 0 }))
      (by decide)).1 0 (by decide)

/-- C8: each configured secret key is mapped by the container
definition to a by-key reference into the single AppSecret construct;
every entry of the secrets map is such a reference for a configured
key; and the plaintext environment map carries only the fixed PORT and
the configured values — no resolved secret value. -/
theorem container_secrets_by_key (keys : List String) (cfg : AppConfig) :
    (∀ k ∈ keys, objGet k (containerSecrets keys) =
      some { secretId := "AppSecret", jsonField := k }) ∧
    (∀ p ∈ containerSecrets keys,
      p.2 = { secretId := "AppSecret", jsonField := p.1 } ∧ p.1 ∈ keys) ∧
    objGet "PORT" (containerEnvironment cfg) = some "3000" ∧
    (∀ k, k ≠ "PORT" → objGet k (containerEnvironment cfg) =
      objGet k (objFromList cfg.environmentVariables)) := by
  refine ⟨?_, ?_, ?_, ?_⟩
  · intro k hk
    unfold containerSecrets buildByKeys
    exact objGet_foldl_objSet_of_mem
      (fun k2 => ({ secretId := "AppSecret", jsonField := k2 } : SecretKeyRef)) keys [] k hk
  · intro p hp
    unfold containerSecrets buildByKeys at hp
    exact foldl_objSet_entries
      (fun k2 => ({ secretId := "AppSecret", jsonField := k2 } : SecretKeyRef))
      (fun q => q.2 = ({ secretId := "AppSecret", jsonField := q.1 } : SecretKeyRef) ∧
        q.1 ∈ keys)
      keys [] (fun q hq => nomatch hq) (fun k hk => ⟨rfl, hk⟩) p hp
  · rw [objGet_containerEnvironment]
    exact objGet_envVars_port cfg
  · intro k hk
    rw [objGet_containerEnvironment]
    exact objGet_envVars_ne cfg k hk

/-- C8 witness: a configured key maps to the AppSecret reference, and a
non-PORT environment key passes through. -/
theorem container_secrets_by_key_witness :
    objGet "DB_PASSWORD" (containerSecrets ["DB_PASSWORD"]) =
      some { secretId := "AppSecret", jsonField := "DB_PASSWORD" } ∧
    objGet "FOO" (containerEnvironment
        { environmentVariables := [("FOO", "bar")], secrets := ["DB_PASSWORD"] }) =
      objGet "FOO" (objFromList [("FOO", "bar")]) :=
  ⟨(container_secrets_by_key ["DB_PASSWORD"]
      { environmentVariables := [("FOO", "bar")], secrets := ["DB_PASSWORD"] }).1
      "DB_PASSWORD" (by decide),
   (container_secrets_by_key ["DB_PASSWORD"]
      { environmentVariables := [("FOO", "bar")], secrets := ["DB_PASSWORD"] }).2.2.2
      "FOO" (by decide)⟩

/-- C9: the ALB security group admits any IPv4 source on TCP 443 and on
TCP 3000 — despite the comments declaring CloudFront and service
intent, neither edge ingress rule restricts its peer. -/
theorem alb_ingress_open_to_any_ipv4 :
    albIngressRules.contains
      { peer := SgPeer.anyIpv4, port := 443, description := "Allow HTTPS traffic" } = true ∧
    albIngressRules.contains
      { peer := SgPeer.anyIpv4, port := 3000, description := "Allow HTTP traffic" } = true ∧
    albIngressRules.all (fun r => r.peer == SgPeer.anyIpv4) = true ∧
    albIngressRules.length = 2 := by
  refine ⟨by decide, by decide, by decide, rfl⟩

/-- C10: the container environment always maps PORT to "3000" — the
override appended after the spread beats any configured PORT — and
every other configured key accesses to exactly its value in the spread
of the configured map, both in envVars and in the rebuilt container
environment object. -/
theorem port_always_overridden (cfg : AppConfig) :
    objGet "PORT" (envVars cfg) = some "3000" ∧
    objGet "PORT" (containerEnvironment cfg) = some "3000" ∧
    (∀ k, k ≠ "PORT" → objGet k (envVars cfg) =
      objGet k (objFromList cfg.environmentVariables)) ∧
    (∀ k, k ≠ "PORT" → objGet k (containerEnvironment cfg) =
      objGet k (objFromList cfg.environmentVariables)) := by
  refine ⟨objGet_envVars_port cfg, ?_, ?_, ?_⟩
  · rw [objGet_containerEnvironment]
    exact objGet_envVars_port cfg
  · intro k hk
    exact objGet_envVars_ne cfg k hk
  · intro k hk
    rw [objGet_containerEnvironment]
    exact objGet_envVars_ne cfg k hk

/-- C10 witness: a configuration that supplies its own PORT is
overridden to "3000" while its other key passes through. -/
theorem port_always_overridden_witness :
    objGet "PORT" (envVars
      { environmentVariables := [("PORT", "9999"), ("FOO", "bar")], secrets := [] }) =
      some "3000" ∧
    objGet "FOO" (envVars
      { environmentVariables := [("PORT", "9999"), ("FOO", "bar")], secrets := [] }) =
      objGet "FOO" (objFromList [("PORT", "9999"), ("FOO", "bar")]) :=
  ⟨(port_always_overridden
      { environmentVariables := [("PORT", "9999"), ("FOO", "bar")], secrets := [] }).1,
   (port_always_overridden
      { environmentVariables := [("PORT", "9999"), ("FOO", "bar")], secrets := [] }).2.2.1
      "FOO" (by decide)⟩
